import Mathlib

/-!
Verification of the PyUnit-derived test execution engine in
`Cheetah/Tests/unittest_local_copy.py` (classes `TestResult`, `TestCase`,
`TestSuite`, `_TextTestResult`, `TestLoader`).

The embedding is shallow: each Python method is translated into a Lean
function over explicit state.  Exception classes are modelled as atoms
(`Exc`); a method that may raise is modelled by an `Option Exc` outcome.
`TestCase.__call__` is modelled as the trace of collector calls it makes
(`Event` list), which is then interpreted against the collector state
(`TextTestResult`) exactly as the Python methods mutate it.
-/

/-- Exception classes that matter to the engine: `AssertionError` is
`TestCase.failureException`; `KeyboardInterrupt` is special-cased by
`_TextTestResult.addError`; `otherError` stands for any other class. -/
inductive Exc where
  | assertionError
  | keyboardInterrupt
  | otherError
deriving DecidableEq, Repr

/-- Test `except self.failureException` in `TestCase.__call__`:
`failureException = AssertionError` (class attribute of `TestCase`). -/
def Exc.isFailureException : Exc → Bool
  | .assertionError => true
  | _ => false

/-- The behaviour of one test case's three user hooks: `none` means the
call returns normally, `some e` means it raises exception `e`.  This is
the input on which `TestCase.__call__` branches. -/
structure UnitBehavior where
  setUpResult : Option Exc
  checkResult : Option Exc
  tearDownResult : Option Exc
deriving DecidableEq, Repr

/-- One call made by `TestCase.__call__` on its `result` collector. -/
inductive Event where
  | startTest
  | stopTest
  | addSuccess
  | addFailure (err : Exc)
  | addError (err : Exc)
deriving DecidableEq, Repr

/-- The middle `try` block of `TestCase.__call__`: run `self._testMethod()`;
`except self.failureException` records a failure, a bare `except` records
an error, no exception records nothing here. -/
def checkEvents : Option Exc → List Event
  | none => []
  | some e => if e.isFailureException then [Event.addFailure e] else [Event.addError e]

/-- The `tearDown` `try` block of `TestCase.__call__`: a bare `except`
records an error (and clears the `ok` flag), no exception records nothing. -/
def tearDownEvents : Option Exc → List Event
  | none => []
  | some e => [Event.addError e]

/-- Model of `TestCase.__call__(result)` as the sequence of collector calls it makes:
`startTest`; if `setUp` raises, `addError` and return; otherwise the check
block, then the `tearDown` block, then `addSuccess` iff `ok` is still set
(`ok = 1` only when the check did not raise, reset to `0` when `tearDown`
raises); `stopTest` runs in the `finally`, on every path. -/
def TestCase.call (b : UnitBehavior) : List Event :=
  [Event.startTest] ++
    (match b.setUpResult with
      | some e => [Event.addError e]
      | none =>
          checkEvents b.checkResult ++
          tearDownEvents b.tearDownResult ++
          (if b.checkResult.isNone && b.tearDownResult.isNone
            then [Event.addSuccess] else [])) ++
  [Event.stopTest]

/-- Whether an event is one of the three outcome records
(`addSuccess`, `addFailure`, `addError`). -/
def Event.isOutcome : Event → Bool
  | .addSuccess => true
  | .addFailure _ => true
  | .addError _ => true
  | _ => false

/-- Number of outcome records in a trace. -/
def outcomeCount (es : List Event) : Nat :=
  es.countP Event.isOutcome

/-- Claim C1, counterexample: A unit whose `setUp` succeeds, whose check
raises the failure exception and whose `tearDown` also raises gets TWO
outcome records (`addFailure` then `addError`), not exactly one. -/
theorem call_two_outcomes_when_check_and_tearDown_raise :
    outcomeCount (TestCase.call
      ⟨none, some Exc.assertionError, some Exc.otherError⟩) = 2 ∧
    ¬ outcomeCount (TestCase.call
      ⟨none, some Exc.assertionError, some Exc.otherError⟩) = 1 := by
  decide

/-- Claim C1, amended: Every started unit gets at least one outcome record;
exactly one, except when `setUp` succeeds and both the check and `tearDown`
raise, in which case exactly two are recorded (the check's failure/error
plus `tearDown`'s error). -/
theorem call_outcome_count (b : UnitBehavior) :
    outcomeCount (TestCase.call b) =
      if b.setUpResult.isNone && b.checkResult.isSome && b.tearDownResult.isSome
        then 2 else 1 := by
  rcases b with ⟨su, ch, td⟩
  rcases su with _ | e₁ <;> rcases ch with _ | e₂ <;> rcases td with _ | e₃ <;>
    (try cases e₁) <;> (try cases e₂) <;> (try cases e₃) <;> decide

/-- Claim C3: With `setUp` succeeding: a check raising the failure exception
is recorded exactly as a failure, a check raising any other class exactly
as an error (so the two never both occur for the same check invocation),
and a check that raises nothing with a succeeding `tearDown` makes the run
a success trace. -/
theorem call_check_classification (b : UnitBehavior) (e : Exc)
    (hs : b.setUpResult = none) :
    (e.isFailureException = true → checkEvents (some e) = [Event.addFailure e]) ∧
    (e.isFailureException = false → checkEvents (some e) = [Event.addError e]) ∧
    outcomeCount (checkEvents (some e)) = 1 ∧
    (b.checkResult = none → b.tearDownResult = none →
      TestCase.call b = [Event.startTest, Event.addSuccess, Event.stopTest]) := by
  refine ⟨?_, ?_, ?_, ?_⟩
  · intro h; simp [checkEvents, h]
  · intro h; simp [checkEvents, h]
  · rcases e with _ | _ | _ <;> decide
  · intro hc ht
    simp [TestCase.call, hs, hc, ht, checkEvents, tearDownEvents]

/-- Witness for `call_check_classification` at a concrete behaviour. -/
theorem call_check_classification_witness :
    checkEvents (some Exc.assertionError) = [Event.addFailure Exc.assertionError] ∧
    TestCase.call ⟨none, none, none⟩ =
      [Event.startTest, Event.addSuccess, Event.stopTest] := by
  have h := call_check_classification ⟨none, none, none⟩ Exc.assertionError rfl
  exact ⟨h.1 rfl, h.2.2.2 rfl rfl⟩

/-- Claim C4: A unit whose `setUp` raises produces exactly the trace
`startTest, addError, stopTest`: the check and `tearDown` contribute
nothing, no success or failure is recorded, and `stopTest` still runs;
moreover every run ends with `stopTest` (the `finally` block). -/
theorem call_setUp_failure (b : UnitBehavior) (e : Exc)
    (hs : b.setUpResult = some e) :
    TestCase.call b = [Event.startTest, Event.addError e, Event.stopTest] ∧
    (TestCase.call b).getLast? = some Event.stopTest := by
  constructor
  · simp [TestCase.call, hs]
  · simp [TestCase.call, hs]

/-- Witness for `call_setUp_failure` at a concrete behaviour. -/
theorem call_setUp_failure_witness :
    TestCase.call ⟨some Exc.otherError, none, some Exc.assertionError⟩ =
      [Event.startTest, Event.addError Exc.otherError, Event.stopTest] :=
  (call_setUp_failure ⟨some Exc.otherError, none, some Exc.assertionError⟩
    Exc.otherError rfl).1

/-- Claim C5: A unit whose `setUp` and check succeed but whose `tearDown`
raises is recorded as an error and not as a success: the trace is
`startTest, addError, stopTest` with no `addSuccess`. -/
theorem call_tearDown_failure (b : UnitBehavior) (e : Exc)
    (hs : b.setUpResult = none) (hc : b.checkResult = none)
    (ht : b.tearDownResult = some e) :
    TestCase.call b = [Event.startTest, Event.addError e, Event.stopTest] ∧
    Event.addSuccess ∉ TestCase.call b := by
  constructor
  · simp [TestCase.call, hs, hc, ht, checkEvents, tearDownEvents]
  · simp [TestCase.call, hs, hc, ht, checkEvents, tearDownEvents]

/-- Witness for `call_tearDown_failure` at a concrete behaviour. -/
theorem call_tearDown_failure_witness :
    TestCase.call ⟨none, none, some Exc.keyboardInterrupt⟩ =
      [Event.startTest, Event.addError Exc.keyboardInterrupt, Event.stopTest] :=
  (call_tearDown_failure ⟨none, none, some Exc.keyboardInterrupt⟩
    Exc.keyboardInterrupt rfl rfl rfl).1

/-! ### `TestCase._setupMetaData`: description construction (C2) -/

/-- Python truthiness default `self._testMethod.__doc__ or '\n'` (and the
same for `self.__doc__`): a missing or empty docstring is replaced by a
single newline. -/
def pyDocOr : Option String → String
  | none => "\n"
  | some s => if s = "" then "\n" else s

/-- Python whitespace as used by `str.strip()`. -/
def pyIsSpace (c : Char) : Bool :=
  c = ' ' || c = '\t' || c = '\n' || c = '\r' || c = '\x0b' || c = '\x0c'

/-- Python `str.strip()`: remove leading and trailing whitespace. -/
def pyStrip (s : String) : String :=
  String.mk (((s.data.dropWhile pyIsSpace).reverse.dropWhile pyIsSpace).reverse)

/-- Split a character list on `'\n'` (keeping empty segments). -/
def splitNl : List Char → List (List Char)
  | [] => [[]]
  | c :: cs =>
      if c = '\n' then [] :: splitNl cs
      else
        match splitNl cs with
        | [] => [[c]]
        | l :: ls => (c :: l) :: ls

/-- Python `str.splitlines()` restricted to `'\n'` separators: no trailing
empty line for a string that ends in a newline, and `[]` for `""`. -/
def pySplitlines (s : String) : List String :=
  if s = "" then []
  else
    let parts := (splitNl s.data).map String.mk
    if parts.getLast? = some ("") then parts.dropLast else parts

/-- Python `docLines[0].strip()`: first line of a docstring, stripped.  The list
is nonempty for every docstring fed in by `_setupMetaData` because of the
`or '\n'` default, so the Python indexing never fails; `headD` mirrors it. -/
def firstLineOf (doc : String) : String :=
  pyStrip ((pySplitlines doc).headD (""))

/-- The description part of `TestCase._setupMetaData`:
`testDescription = testDocLines[0].strip()`,
`fixtureDescription = fixtureDocLines[0].strip()`, and then
`if not fixtureDescription: description = testDescription
else: description = fixtureDescription + ', ' + testDescription`. -/
def setupDescription (fixtureDoc testDoc : Option String) : String :=
  let testDescription := firstLineOf (pyDocOr testDoc)
  let fixtureDescription := firstLineOf (pyDocOr fixtureDoc)
  if fixtureDescription = "" then testDescription
  else fixtureDescription ++ ", " ++ testDescription

/-- Claim C2, counterexample: A fixture docstring `"A"` with no check
docstring yields description `"A, "`: the comma separator is emitted even
though the check part is empty, contradicting "comma only when both parts
are non-empty" (which would demand `"A"`). -/
theorem setupDescription_comma_with_empty_check_part :
    setupDescription (some ("A")) none = "A, " ∧
    firstLineOf (pyDocOr none) = "" ∧
    setupDescription (some ("A")) none ≠ "A" := by
  refine ⟨rfl, rfl, ?_⟩
  decide

/-- Claim C2, amended: The comma separator is keyed on the fixture part
alone: when the fixture docstring's first line (stripped) is empty the
description is the check part alone, and when it is non-empty the
description is always `fixture ++ ", " ++ check`, even if the check part
is empty. -/
theorem setupDescription_rule (fixtureDoc testDoc : Option String) :
    (firstLineOf (pyDocOr fixtureDoc) = "" →
      setupDescription fixtureDoc testDoc = firstLineOf (pyDocOr testDoc)) ∧
    (firstLineOf (pyDocOr fixtureDoc) ≠ "" →
      setupDescription fixtureDoc testDoc =
        firstLineOf (pyDocOr fixtureDoc) ++ ", " ++ firstLineOf (pyDocOr testDoc)) := by
  constructor
  · intro h; simp [setupDescription, h]
  · intro h; simp [setupDescription, h]

/-- Witness for `setupDescription_rule` at concrete docstrings. -/
theorem setupDescription_rule_witness :
    setupDescription (some ("Fixture doc.\nmore")) (some (" Check doc. ")) =
      "Fixture doc." ++ ", " ++ "Check doc." :=
  (setupDescription_rule (some ("Fixture doc.\nmore")) (some (" Check doc. "))).2
    (by decide)

/-! ### `_TextTestResult`: the collector the text runner uses (C6, C7) -/

/-- State of a `_TextTestResult` collector: the `TestResult` fields
(`failures`, `errors`, `testsRun`, `shouldStop`) plus the `StreamWrapper`
output streams (modelled as the accumulated text) and the verbosity
configuration.  Failure/error records hold the test's id string in place
of the Python test object reference, and the exception class in place of
the `sys.exc_info()` triple. -/
structure TextTestResult where
  failures : List (String × Exc)
  errors : List (String × Exc)
  testsRun : Nat
  shouldStop : Bool
  out : String
  errOut : String
  verbosity : Nat
deriving DecidableEq, Repr

/-- Python `self._showAll = verbosity > 1`. -/
def TextTestResult.showAll (r : TextTestResult) : Bool := r.verbosity > 1

/-- Python `self._dots = (verbosity == 1)`. -/
def TextTestResult.dots (r : TextTestResult) : Bool := r.verbosity == 1

/-- Model of `StreamWrapper.write`: append to the primary output stream. -/
def TextTestResult.write (r : TextTestResult) (txt : String) : TextTestResult :=
  { r with out := r.out ++ txt }

/-- Model of `StreamWrapper.writeln` with one line. -/
def TextTestResult.writeln (r : TextTestResult) (line : String) : TextTestResult :=
  r.write (line ++ "\n")

/-- Model of `_TextTestResult.startTest`: `TestResult.startTest` increments the run
count unconditionally; in verbose mode the id/description header is
written. -/
def TextTestResult.startTest (r : TextTestResult) (tid descr : String) : TextTestResult :=
  let r := { r with testsRun := r.testsRun + 1 }
  if r.showAll then (r.write (tid ++ " (" ++ descr ++ ")")).write (" ... ") else r

/-- Model of `_TextTestResult.stopTest`, which inherits `TestResult.stopTest`, a no-op. -/
def TextTestResult.stopTest (r : TextTestResult) : TextTestResult := r

/-- Model of `_TextTestResult.addSuccess`: `TestResult.addSuccess` is a no-op on
the record state; writes `ok` / `.` according to verbosity. -/
def TextTestResult.addSuccess (r : TextTestResult) : TextTestResult :=
  if r.showAll then r.writeln ("ok")
  else if r.dots then r.write (".") else r

/-- Model of `_TextTestResult.addFailure`: `TestResult.addFailure` appends the
`(test, err)` pair; writes `FAIL` / `F` according to verbosity. -/
def TextTestResult.addFailure (r : TextTestResult) (tid : String) (err : Exc) : TextTestResult :=
  let r := { r with failures := r.failures ++ [(tid, err)] }
  if r.showAll then r.writeln ("FAIL")
  else if r.dots then r.write ("F") else r

/-- Model of `_TextTestResult.addError`: `TestResult.addError` appends the
`(test, err)` pair; writes `ERROR` / `E` according to verbosity; then
`if err[0] is KeyboardInterrupt: self.stop()` sets the stop flag. -/
def TextTestResult.addError (r : TextTestResult) (tid : String) (err : Exc) : TextTestResult :=
  let r := { r with errors := r.errors ++ [(tid, err)] }
  let r := if r.showAll then r.writeln ("ERROR")
           else if r.dots then r.write ("E") else r
  if err = Exc.keyboardInterrupt then { r with shouldStop := true } else r

/-- Model of `TestResult.wasSuccessful`: both sequences empty. -/
def TextTestResult.wasSuccessful (r : TextTestResult) : Bool :=
  r.failures.length == 0 && r.errors.length == 0

/-! ### The `Test` tree: `TestCase` and `TestSuite` (C6, C8, C10) -/

/-- The per-instance data of a `TestCase`: its hook behaviour, its
`_testMethodName`, its `_id` and its `_description`. -/
structure TestCaseData where
  behavior : UnitBehavior
  methodName : String
  idStr : String
  descr : String
deriving DecidableEq, Repr

/-- A runnable item: a `TestCase` or a `TestSuite`.  A suite carries its
`_tests` list (execution order), its `_testMap` name-lookup dict (modelled
as an association list with at most one entry per key, updated in place)
and its `suiteName`. -/
inductive Test where
  | case (data : TestCaseData)
  | suite (tests : List Test) (testMap : List (String × Test)) (suiteName : Option String)

/-- Dict update `m[k] = v`: overwrite the existing entry for `k`, or
append a new one. -/
def dictSet (m : List (String × Test)) (k : String) (v : Test) : List (String × Test) :=
  match m with
  | [] => [(k, v)]
  | (k', v') :: rest =>
      if k' = k then (k', v) :: rest else (k', v') :: dictSet rest k v

/-- Dict lookup `m[name]`, `none` for a missing key (Python `KeyError`). -/
def dictGet (m : List (String × Test)) (k : String) : Option Test :=
  match m with
  | [] => none
  | (k', v') :: rest => if k' = k then some v' else dictGet rest k

/-- Python truthiness of `test.suiteName` (`None` and `''` are falsy). -/
def pyTruthy : Option String → Bool
  | none => false
  | some s => s ≠ ""

/-- The key `TestSuite.addTest` derives for a child:
`if isinstance(test, TestSuite) and test.suiteName: name = test.suiteName`,
`elif isinstance(test, TestCase): name = test._testMethodName`,
`else: name = test.__class__.__name__` — the last branch is reached by a
`TestSuite` without a truthy name, whose class name is `"TestSuite"`. -/
def Test.deriveName : Test → String
  | .suite _ _ sn => if pyTruthy sn then sn.getD ("") else "TestSuite"
  | .case d => d.methodName

/-- Model of `TestSuite.addTest`: append to `_tests` and index under the derived
name in `_testMap`.  The method lives on `TestSuite`; applied to a plain
case the model returns it unchanged. -/
def Test.addTest (s : Test) (t : Test) : Test :=
  match s with
  | .suite ts m sn => .suite (ts ++ [t]) (dictSet m t.deriveName t) sn
  | c => c

/-- Model of `TestSuite.addTests`: add many in order. -/
def Test.addTests (s : Test) (ts : List Test) : Test :=
  ts.foldl Test.addTest s

/-- Model of `TestSuite.__init__(tests, suiteName)`: start empty, then `addTests`. -/
def TestSuite.init (tests : List Test) (suiteName : Option String) : Test :=
  (Test.suite [] [] suiteName).addTests tests

/-- Model of `TestSuite.getTestForName`: `return self._testMap[name]`. -/
def Test.getTestForName (s : Test) (name : String) : Option Test :=
  match s with
  | .suite _ m _ => dictGet m name
  | .case _ => none

/-- The `_tests` list of a suite (empty for a plain case). -/
def Test.testsOf : Test → List Test
  | .suite ts _ _ => ts
  | .case _ => []

/-- Model of `countTestCases`: `1` for a `TestCase`; for a `TestSuite` the loop
`cases = 0; for test in self._tests: cases = cases + test.countTestCases()`. -/
def Test.countTestCases : Test → Nat
  | .case _ => 1
  | .suite ts _ _ => countList ts
where
  countList : List Test → Nat
    | [] => 0
    | t :: ts => t.countTestCases + countList ts

/-- Interpretation of one collector call from `TestCase.__call__` against
the `_TextTestResult` state (the collector the text runner passes in). -/
def applyEvent (d : TestCaseData) (r : TextTestResult) : Event → TextTestResult
  | .startTest => r.startTest d.idStr d.descr
  | .stopTest => r.stopTest
  | .addSuccess => r.addSuccess
  | .addFailure e => r.addFailure d.idStr e
  | .addError e => r.addError d.idStr e

/-- Running a `Test` against a collector.  A `TestCase` performs its
`__call__` trace; a `TestSuite.__call__` iterates
`for test in self._tests: if result.shouldStop: break; test(result)`. -/
def Test.run : Test → TextTestResult → TextTestResult
  | .case d, r => (TestCase.call d.behavior).foldl (applyEvent d) r
  | .suite ts _ _, r => runList ts r
where
  runList : List Test → TextTestResult → TextTestResult
    | [], r => r
    | t :: ts, r => if r.shouldStop then r else runList ts (t.run r)

/-- Claim C6: `TestSuite.__call__` checks the collector's stop flag before
dispatching each child, in insertion order: with the flag set the whole
remaining traversal is the identity (no child is started), and with the
flag clear the head child runs to completion before the flag is consulted
again for the tail. -/
theorem suite_run_stops_at_boundary (ts : List Test) (t : Test)
    (m : List (String × Test)) (sn : Option String) (r : TextTestResult) :
    (r.shouldStop = true → (Test.suite ts m sn).run r = r) ∧
    (r.shouldStop = true → Test.run.runList ts r = r) ∧
    (r.shouldStop = false →
      Test.run.runList (t :: ts) r = Test.run.runList ts (t.run r)) := by
  refine ⟨?_, ?_, ?_⟩
  · intro h
    cases ts with
    | nil => rfl
    | cons t' ts' => simp [Test.run, Test.run.runList, h]
  · intro h
    cases ts with
    | nil => rfl
    | cons t' ts' => simp [Test.run.runList, h]
  · intro h
    simp [Test.run.runList, h]

/-- Witness for `suite_run_stops_at_boundary`: a stopped collector is
returned untouched by a nonempty suite. -/
theorem suite_run_stops_at_boundary_witness :
    (Test.suite [Test.case ⟨⟨none, none, none⟩, "testA", "Fixture.testA", "doc"⟩]
        [] none).run ⟨[], [], 0, true, "", "", 1⟩ = ⟨[], [], 0, true, "", "", 1⟩ :=
  (suite_run_stops_at_boundary
    [Test.case ⟨⟨none, none, none⟩, "testA", "Fixture.testA", "doc"⟩]
    (Test.case ⟨⟨none, none, none⟩, "testA", "Fixture.testA", "doc"⟩)
    [] none ⟨[], [], 0, true, "", "", 1⟩).1 rfl

/-- Claim C7: `_TextTestResult.addError` appends the `(test, err)` record to
the error sequence like any other error, and when the exception class is
`KeyboardInterrupt` it additionally sets the collector's stop flag via
`self.stop()`. -/
theorem addError_interrupt_sets_stop (r : TextTestResult) (tid : String) (e : Exc) :
    (r.addError tid e).errors = r.errors ++ [(tid, e)] ∧
    (r.addError tid Exc.keyboardInterrupt).errors =
      r.errors ++ [(tid, Exc.keyboardInterrupt)] ∧
    (r.addError tid Exc.keyboardInterrupt).shouldStop = true := by
  refine ⟨?_, ?_, ?_⟩ <;>
    · simp only [TextTestResult.addError, TextTestResult.writeln, TextTestResult.write]
      split_ifs <;> simp_all

/-! ### `countTestCases` (C8) and `_testMap` indexing (C10) -/

/-- The suite loop of `countTestCases` computes the sum of the children's
counts. -/
theorem countList_eq_sum (ts : List Test) :
    Test.countTestCases.countList ts = (ts.map Test.countTestCases).sum := by
  induction ts with
  | nil => rfl
  | cons t ts ih => simp [Test.countTestCases.countList, ih]

/-- Claim C8: `countTestCases` of a suite is the sum of its children's
counts (recursively), `0` for an empty suite and `1` for a single test
case; and because it is recomputed on each call, a child added by
`addTest` after construction contributes to the next call's count. -/
theorem countTestCases_spec (ts : List Test) (m : List (String × Test))
    (sn : Option String) (d : TestCaseData) (t : Test) :
    (Test.suite ts m sn).countTestCases = (ts.map Test.countTestCases).sum ∧
    (Test.suite [] m sn).countTestCases = 0 ∧
    (Test.case d).countTestCases = 1 ∧
    ((Test.suite ts m sn).addTest t).countTestCases =
      (Test.suite ts m sn).countTestCases + t.countTestCases := by
  refine ⟨countList_eq_sum ts, rfl, rfl, ?_⟩
  simp [Test.addTest, Test.countTestCases, countList_eq_sum]

/-- Updating a key and then looking it up yields the new value. -/
theorem dictGet_dictSet (m : List (String × Test)) (k : String) (v : Test) :
    dictGet (dictSet m k v) k = some v := by
  induction m with
  | nil => simp [dictSet, dictGet]
  | cons p rest ih =>
      obtain ⟨k', v'⟩ := p
      by_cases h : k' = k <;> simp [dictSet, dictGet, h, ih]

/-- Claim C10: `TestSuite.addTest` keys an unnamed nested suite under its
class name `"TestSuite"`; `_testMap` keeps one entry per key, so when two
children derive the same key the later `addTest` overwrites the mapping
entry — `getTestForName` on the first child's key returns the most
recently added child — while both children remain, in order, in the
`_tests` execution sequence. -/
theorem addTest_same_key_overwrites (ts : List Test) (m : List (String × Test))
    (sn : Option String) (t₁ t₂ : Test) (h : t₁.deriveName = t₂.deriveName) :
    (((Test.suite ts m sn).addTest t₁).addTest t₂).getTestForName t₁.deriveName =
      some t₂ ∧
    (((Test.suite ts m sn).addTest t₁).addTest t₂).testsOf = ts ++ [t₁, t₂] ∧
    (∀ ts' m', (Test.suite ts' m' none).deriveName = "TestSuite") := by
  refine ⟨?_, ?_, ?_⟩
  · simp [Test.addTest, Test.getTestForName, h, dictGet_dictSet]
  · simp [Test.addTest, Test.testsOf]
  · intro ts' m'
    rfl

/-- Witness for `addTest_same_key_overwrites`: two unnamed nested suites
both key as `"TestSuite"`, the second wins the mapping, both run. -/
theorem addTest_same_key_overwrites_witness :
    (((Test.suite [] [] (some ("outer"))).addTest
        (Test.suite [] [] none)).addTest
        (Test.suite [Test.case ⟨⟨none, none, none⟩, "testA", "Fixture.testA", "doc2"⟩]
          [] none)).getTestForName ("TestSuite") =
      some (Test.suite [Test.case ⟨⟨none, none, none⟩, "testA", "Fixture.testA", "doc2"⟩]
        [] none) ∧
    (((Test.suite [] [] (some ("outer"))).addTest
        (Test.suite [] [] none)).addTest
        (Test.suite [Test.case ⟨⟨none, none, none⟩, "testA", "Fixture.testA", "doc2"⟩]
          [] none)).testsOf =
      [Test.suite [] [] none,
       Test.suite [Test.case ⟨⟨none, none, none⟩, "testA", "Fixture.testA", "doc2"⟩]
         [] none] := by
  have h := addTest_same_key_overwrites [] [] (some ("outer"))
    (Test.suite [] [] none)
    (Test.suite [Test.case ⟨⟨none, none, none⟩, "testA", "Fixture.testA", "doc2"⟩]
      [] none) rfl
  exact ⟨h.1, h.2.1⟩

/-! ### `TestLoader.getTestCaseNames` (C9) -/

/-- A fixture class as the loader sees it: `dir(testCaseClass)` (the
class's own attribute names — old-style classes, so `dir` does not include
inherited names) and `__bases__`. -/
inductive FixtureClass where
  | mk (dirNames : List String) (bases : List FixtureClass)

/-- The `dir` list of a fixture class. -/
def FixtureClass.dirNames : FixtureClass → List String
  | .mk d _ => d

/-- The filter `lambda n, p=self.testMethodPrefix: n[:len(p)] == p`. -/
def matchesMethodPref (pref n : String) : Bool :=
  n.data.take pref.data.length == pref.data

/-- The inheritance-merging loop: for each inherited name, append it to
the accumulated list only if it is not already present
(`if testFnName not in testFnNames: testFnNames.append(testFnName)`). -/
def mergeNames (inherited acc : List String) : List String :=
  inherited.foldl (fun acc n => if n ∈ acc then acc else acc ++ [n]) acc

mutual

/-- Model of `TestLoader.getTestCaseNames` with the default loader configuration
(`testMethodPrefix` passed as `pref`, `sortTestMethodsUsing = cmp`, which
is truthy, so the final sort always runs): filter the class's own `dir`
names by prefix, merge in each base class's recursively computed names
that are not already present, then sort by natural string order (`cmp`;
`insertionSort` is the same stable comparison sort). -/
def getTestCaseNames (pref : String) : FixtureClass → List String
  | .mk dirNames bases =>
      List.insertionSort (fun a b => a ≤ b)
        (mergeBases pref bases (dirNames.filter (matchesMethodPref pref)))

/-- The `for baseclass in testCaseClass.__bases__` loop of
`getTestCaseNames`. -/
def mergeBases (pref : String) : List FixtureClass → List String → List String
  | [], acc => acc
  | b :: bs, acc => mergeBases pref bs (mergeNames (getTestCaseNames pref b) acc)

end

/-- Unfolding of one step of the merge loop. -/
theorem mergeNames_cons (n : String) (l acc : List String) :
    mergeNames (n :: l) acc =
      mergeNames l (if n ∈ acc then acc else acc ++ [n]) := rfl

/-- The merge loop never introduces a duplicate: it checks membership in
the accumulated list before each append. -/
theorem mergeNames_nodup (l : List String) (acc : List String) (h : acc.Nodup) :
    (mergeNames l acc).Nodup := by
  induction l generalizing acc with
  | nil => exact h
  | cons n l ih =>
      rw [mergeNames_cons]
      by_cases hn : n ∈ acc
      · simpa [hn] using ih acc h
      · have hacc : (acc ++ [n]).Nodup := by
          simp [List.nodup_append, h, hn]
        simpa [hn] using ih _ hacc

/-- The merge loop only ever appends: accumulated names stay present. -/
theorem mergeNames_mem (l acc : List String) (x : String) (h : x ∈ acc) :
    x ∈ mergeNames l acc := by
  induction l generalizing acc with
  | nil => exact h
  | cons n l ih =>
      rw [mergeNames_cons]
      by_cases hn : n ∈ acc
      · simpa [hn] using ih acc h
      · have : x ∈ acc ++ [n] := List.mem_append_left _ h
        simpa [hn] using ih _ this

/-- The base-class loop preserves distinctness of the accumulated list. -/
theorem mergeBases_nodup (pref : String) (bs : List FixtureClass)
    (acc : List String) (h : acc.Nodup) : (mergeBases pref bs acc).Nodup := by
  induction bs generalizing acc with
  | nil => exact h
  | cons b bs ih =>
      rw [mergeBases]
      exact ih _ (mergeNames_nodup _ _ h)

/-- The base-class loop preserves membership of the accumulated list. -/
theorem mergeBases_mem (pref : String) (bs : List FixtureClass)
    (acc : List String) (x : String) (h : x ∈ acc) :
    x ∈ mergeBases pref bs acc := by
  induction bs generalizing acc with
  | nil => exact h
  | cons b bs ih =>
      rw [mergeBases]
      exact ih _ (mergeNames_mem _ _ _ h)

/-- Model of `TestLoader.loadTestsFromTestCase`: one `TestCase` instance per sorted
name (`map(testCaseClass, self.getTestCaseNames(testCaseClass))`), wrapped
in `self.suiteClass(tests=..., suiteName=testCaseClass.__name__)`.
`mkCase n` models constructing `testCaseClass(n)`. -/
def loadTestsFromTestCase (mkCase : String → TestCaseData) (pref : String)
    (c : FixtureClass) (className : String) : Test :=
  TestSuite.init ((getTestCaseNames pref c).map (fun n => Test.case (mkCase n)))
    (some className)

/-- Lemma: `TestSuite.__init__`/`addTests` appends the given tests in order. -/
theorem testsOf_addTests (ts a : List Test) (m : List (String × Test))
    (sn : Option String) :
    ((Test.suite a m sn).addTests ts).testsOf = a ++ ts := by
  induction ts generalizing a m with
  | nil => simp [Test.addTests, Test.testsOf]
  | cons t ts ih =>
      have step : (Test.suite a m sn).addTests (t :: ts) =
          (Test.suite (a ++ [t]) (dictSet m t.deriveName t) sn).addTests ts := rfl
      rw [step, ih]
      simp

/-- Claim C9: For every fixture class whose `dir` listing is duplicate-free,
the loader's name enumeration contains no duplicate (an overridden check
inherited from an ancestor is merged only when not already present), is
sorted in natural string order under the default ordering, and contains
every prefix-matching own name; in particular a fixture with checks
`testB, testA, testC` enumerates — and `loadTestsFromTestCase` therefore
executes — `testA, testB, testC` in that order. -/
theorem getTestCaseNames_spec (pref : String) (dirNames : List String)
    (bases : List FixtureClass) (mkCase : String → TestCaseData)
    (h : dirNames.Nodup) :
    (getTestCaseNames pref (.mk dirNames bases)).Nodup ∧
    List.Sorted (fun a b : String => a ≤ b)
      (getTestCaseNames pref (.mk dirNames bases)) ∧
    (∀ n, n ∈ dirNames → matchesMethodPref pref n = true →
      n ∈ getTestCaseNames pref (.mk dirNames bases)) ∧
    getTestCaseNames ("test") (.mk ["testB", "testA", "testC"] []) =
      ["testA", "testB", "testC"] ∧
    (loadTestsFromTestCase mkCase ("test") (.mk ["testB", "testA", "testC"] [])
        "ExampleFixture").testsOf =
      [Test.case (mkCase ("testA")), Test.case (mkCase ("testB")),
       Test.case (mkCase ("testC"))] := by
  have hex : getTestCaseNames ("test") (.mk ["testB", "testA", "testC"] []) =
      ["testA", "testB", "testC"] := by
    simp +decide [getTestCaseNames, mergeBases, mergeNames, matchesMethodPref,
      List.insertionSort, List.orderedInsert]
  refine ⟨?_, ?_, ?_, hex, ?_⟩
  · rw [getTestCaseNames]
    exact ((List.perm_insertionSort _ _).nodup_iff).mpr
      (mergeBases_nodup _ _ _ (h.filter _))
  · rw [getTestCaseNames]
    exact List.sorted_insertionSort _ _
  · intro n hn hp
    rw [getTestCaseNames]
    simp only [List.mem_insertionSort]
    exact mergeBases_mem _ _ _ _ (List.mem_filter.mpr ⟨hn, hp⟩)
  · rw [loadTestsFromTestCase, hex, TestSuite.init, testsOf_addTests]
    simp

/-- Witness for `getTestCaseNames_spec` on the concrete example fixture. -/
theorem getTestCaseNames_spec_witness :
    (getTestCaseNames ("test") (.mk ["testB", "testA", "testC"] [])).Nodup ∧
    getTestCaseNames ("test") (.mk ["testB", "testA", "testC"] []) =
      ["testA", "testB", "testC"] := by
  have h := getTestCaseNames_spec ("test") ["testB", "testA", "testC"] []
    (fun n => ⟨⟨none, none, none⟩, n, n, ""⟩) (by decide)
  exact ⟨h.1, h.2.2.2.1⟩
